import Mathlib

/-
  Verification development for the sonar-viewer repository.

  Shallow embedding of the signal-to-color rendering pipeline:
    - src/utils/colorMapping.ts   (Kalman bottom tracking, TVG, noise floor,
                                   classifier signalToColorT03Average, palettes)
    - src/utils/sonarDataConverter.ts  (expandSonarSamples, createRenderPacket)
    - src/components/RadarCanvas.tsx   (frame composer: shift / seek-redraw)

  JavaScript numbers are modelled as rationals (exact arithmetic); machine
  integer stores (Uint8Array) use an explicit mod 2^8.  Math.floor is Int.floor,
  Math.round is Mathlib's round (both round half-up, matching JS on rationals).
  Math.log10 and Math.pow(10, _) are transcendental; they are abstracted as a
  JsMath parameter, so every theorem below quantifies over (or is insensitive
  to) the actual implementation; concrete evaluations use an arbitrary fixed
  instance and only exercise code paths that never consult it, except where
  noted.
-/

/- Batteries marks the rational-number operations irreducible, which blocks
the elaborator-level evaluation used by decide on the exact-arithmetic model;
restore default reducibility for them in this development. -/
attribute [local semireducible] Rat.add Rat.sub Rat.mul Rat.inv Rat.ofScientific

namespace SonarViewer

/-- RGBA color object, mirroring the ColorRGBA interface of colorMapping.ts.
All production color paths build components with Math.floor / Math.round or
integer literals, so components are modelled as integers. -/
structure ColorRGBA where
  r : ℤ
  g : ℤ
  b : ℤ
  a : ℤ
deriving DecidableEq

/-- Maximum raw signal value from hardware (MAX_RAW_SIGNAL in colorMapping.ts). -/
def MAX_RAW_SIGNAL : ℚ := 255

/-- Fully transparent black, the background / suppressed-bin color. -/
def transparent : ColorRGBA := ⟨0, 0, 0, 0⟩

/-- hexToRgba of the palette constants used by the module (hex parsing of the
string literals is precomputed here). -/
def saddleBrown : ColorRGBA := ⟨0x8B, 0x45, 0x13, 255⟩

def tanBrown : ColorRGBA := ⟨0xD2, 0xB4, 0x8C, 255⟩

def peruBrown : ColorRGBA := ⟨0xCD, 0x85, 0x3F, 255⟩

def darkBrown : ColorRGBA := ⟨0x5D, 0x3A, 0x1A, 255⟩

/-- Linear interpolation between two colors (lerpColor in colorMapping.ts);
the interpolation factor is clamped to the unit interval before use. -/
def lerpColor (color1 color2 : ColorRGBA) (t : ℚ) : ColorRGBA :=
  let clampedT := max 0 (min 1 t)
  ⟨round ((color1.r : ℚ) + ((color2.r : ℚ) - (color1.r : ℚ)) * clampedT),
   round ((color1.g : ℚ) + ((color2.g : ℚ) - (color1.g : ℚ)) * clampedT),
   round ((color1.b : ℚ) + ((color2.b : ℚ) - (color1.b : ℚ)) * clampedT),
   round ((color1.a : ℚ) + ((color2.a : ℚ) - (color1.a : ℚ)) * clampedT)⟩

/-- Deeper-style SNR gradient (getFishColorDeeper in colorMapping.ts). -/
def getFishColorDeeper (snr : ℚ) : ColorRGBA :=
  if snr < 3 then ⟨0, 0, 0, 0⟩
  else if snr < 5 then
    let t := (snr - 3) / 2
    ⟨⌊128 + t * 56⌋, ⌊128 + t * 6⌋, 0, ⌊150 + t * 55⌋⟩
  else if snr < 8 then
    let t := (snr - 5) / 3
    ⟨⌊184 + t * 71⌋, ⌊134 + t * 81⌋, 0, 255⟩
  else if snr < 12 then
    let t := (snr - 8) / 4
    ⟨⌊255 - t * 82⌋, ⌊215 + t * 40⌋, ⌊t * 47⌋, 255⟩
  else if snr < 20 then
    let t := (snr - 12) / 8
    ⟨⌊173 - t * 173⌋, 255, ⌊47 + t * 80⌋, 255⟩
  else if snr < 35 then
    let t := (snr - 20) / 15
    ⟨⌊t * 127⌋, 255, ⌊127 + t * 85⌋, 255⟩
  else
    let t := min 1 ((snr - 35) / 25)
    ⟨⌊127 + t * 128⌋, 255, ⌊212 + t * 43⌋, 255⟩

/-- Color stops of the continuous gradient in getColorForRawSignal
(threshold in normalized 0..1 units, color from the hex literal). -/
def colorStops : List (ℚ × ColorRGBA) :=
  [(0,      ⟨0x00, 0x00, 0x00, 255⟩),
   (0.0125, ⟨0x00, 0x00, 0x00, 255⟩),
   (0.0625, ⟨0x00, 0x1a, 0x33, 255⟩),
   (0.125,  ⟨0xFF, 0xFF, 0x00, 255⟩),
   (0.1375, ⟨0x7F, 0xFF, 0x00, 255⟩),
   (0.141,  ⟨0xFF, 0x00, 0x00, 255⟩),
   (0.149,  ⟨0xFF, 0x8C, 0x00, 255⟩),
   (0.157,  ⟨0xFF, 0xD7, 0x00, 255⟩),
   (0.165,  ⟨0x00, 0xFF, 0x00, 255⟩),
   (0.173,  ⟨0x00, 0xFF, 0xFF, 255⟩),
   (0.181,  ⟨0x00, 0x80, 0xFF, 255⟩),
   (0.189,  ⟨0x80, 0x00, 0xFF, 255⟩),
   (0.197,  ⟨0xFF, 0x00, 0xFF, 255⟩),
   (0.2,    ⟨0xFF, 0xFF, 0xFF, 255⟩),
   (0.3,    ⟨0xE0, 0xFF, 0xE0, 255⟩),
   (0.375,  ⟨0xE0, 0xFF, 0xE0, 255⟩),
   (0.3875, ⟨0xD2, 0x69, 0x1E, 255⟩),
   (0.6,    ⟨0xCD, 0x85, 0x3F, 255⟩),
   (0.8,    ⟨0x8B, 0x45, 0x13, 255⟩),
   (1,      ⟨0x65, 0x43, 0x21, 255⟩)]

/-- The interpolation loop of getColorForRawSignal: walk consecutive stops,
return the lerp of the first enclosing interval; falling off the end returns
the last stop's color (the JS fallback).  The empty-list case is unreachable
for the concrete stop table. -/
def findStopColor (norm : ℚ) : List (ℚ × ColorRGBA) → ColorRGBA
  | s1 :: s2 :: rest =>
    if s1.1 ≤ norm ∧ norm ≤ s2.1 then
      let rangeSize := s2.1 - s1.1
      let t := if 0 < rangeSize then (norm - s1.1) / rangeSize else 0
      lerpColor s1.2 s2.2 t
    else findStopColor norm (s2 :: rest)
  | [s] => s.2
  | [] => ⟨0, 0, 0, 0⟩

/-- getColorForRawSignal: clamp to 0..255, normalize, look up the gradient.
The depthRatio argument is unused by the source (underscore parameter). -/
def getColorForRawSignal (raw : ℚ) (_depthRatio : ℚ) : ColorRGBA :=
  let clampedRaw := max 0 (min MAX_RAW_SIGNAL raw)
  let norm := clampedRaw / MAX_RAW_SIGNAL
  findStopColor norm colorStops

/-- signalToColor: legacy wrapper, clamps to MAX_RAW_SIGNAL then maps. -/
def signalToColor (signal : ℚ) (depthRatio : ℚ) : ColorRGBA :=
  getColorForRawSignal (min signal MAX_RAW_SIGNAL) depthRatio

/-- signalToColorIceFishing: threshold ladder of constant colors. -/
def signalToColorIceFishing (signal : ℚ) : ColorRGBA :=
  if signal < 96 then ⟨248, 248, 248, 255⟩
  else
    let remappedSignal := (signal - 96) / (192 - 96) * 255
    if remappedSignal < 15 then ⟨248, 248, 248, 255⟩
    else if remappedSignal < 30 then ⟨232, 232, 232, 255⟩
    else if remappedSignal < 50 then ⟨208, 208, 208, 255⟩
    else if remappedSignal < 80 then ⟨160, 160, 160, 255⟩
    else if remappedSignal < 110 then ⟨102, 102, 170, 255⟩
    else if remappedSignal < 140 then ⟨68, 68, 204, 255⟩
    else if remappedSignal < 170 then ⟨34, 34, 238, 255⟩
    else if remappedSignal < 200 then ⟨153, 102, 51, 255⟩
    else if remappedSignal < 230 then ⟨170, 51, 34, 255⟩
    else if remappedSignal < 250 then ⟨119, 68, 119, 255⟩
    else ⟨85, 51, 85, 255⟩

/-- getBottomHighlightColor: constant gold accent. -/
def getBottomHighlightColor : ColorRGBA := ⟨0xD4, 0xAF, 0x37, 255⟩

/-- getBottomTextureColor: brown base #A8652E darkened by signal strength with
a red boost, alpha fixed 255. -/
def getBottomTextureColor (raw : ℚ) : ColorRGBA :=
  let strength := max 0 (min 1 (raw / MAX_RAW_SIGNAL))
  let darkenFactor := 1 - strength * 0.15
  let redBoost := strength * 20
  ⟨min 255 (round ((0xA8 : ℚ) * darkenFactor + redBoost)),
   round ((0x65 : ℚ) * darkenFactor),
   round ((0x2E : ℚ) * darkenFactor),
   255⟩

/-- Confidence from signal strength (calculateBottomConfidence). -/
def calculateBottomConfidence (signalStrength : ℚ) : ℚ :=
  if 200 ≤ signalStrength then 1
  else if 150 ≤ signalStrength then 0.8
  else if 100 ≤ signalStrength then 0.5
  else if 50 ≤ signalStrength then 0.2
  else 0

/-- State of a BottomKalmanFilter instance (fields x, P, initialized,
stableCount of the class; the constant fields Q and R are the definitions
kalmanQ / kalmanR below). -/
structure KalmanState where
  x : ℚ
  P : ℚ
  isInit : Bool
  stableCount : ℕ
deriving DecidableEq

/-- Process noise Q of BottomKalmanFilter. -/
def kalmanQ : ℚ := 0.00001

/-- Measurement noise R of BottomKalmanFilter. -/
def kalmanR : ℚ := 2

/-- A freshly constructed BottomKalmanFilter. -/
def mkKalman : KalmanState := ⟨-1, 1, false, 0⟩

/-- BottomKalmanFilter.update: returns the new instance state and the
returned stable bottom index. -/
def kalmanUpdate (s : KalmanState) (measurement confidence : ℚ) :
    KalmanState × ℚ :=
  if s.isInit = false ∧ 0 < measurement ∧ 0.3 < confidence then
    ({ s with x := measurement, isInit := true, stableCount := 0 }, measurement)
  else if s.isInit = false then
    (s, if 0 < measurement then measurement else -1)
  else if measurement ≤ 0 ∨ confidence < 0.3 then
    ({ s with P := s.P + kalmanQ }, (round s.x : ℚ))
  else if 1 < |measurement - s.x| then
    ({ s with stableCount := 0, P := s.P + kalmanQ }, (round s.x : ℚ))
  else
    let stableCount' := min 10 (s.stableCount + 1)
    let stabilityBonus : ℚ := (stableCount' : ℚ) / 10
    let adjustedR := kalmanR / (confidence * (1 + stabilityBonus))
    let P1 := s.P + kalmanQ
    let K := P1 / (P1 + adjustedR)
    let x' := s.x + K * (measurement - s.x)
    ({ s with x := x', P := P1 * (1 - K), stableCount := stableCount' },
     (round x' : ℚ))

/-- The module-level Map of per-column Kalman filters
(bottomKalmanFilters in colorMapping.ts).  getBottomKalmanFilter creates a
fresh filter on first access, so the map is modelled as a total function
defaulting to mkKalman; storing back is Function.update. -/
def FilterMap : Type := ℚ → KalmanState

/-- The empty filter map: every column position holds a fresh filter.  This is
also the state produced by resetBottomTracking (bottomKalmanFilters.clear). -/
def resetBottomTracking : FilterMap := fun _ => mkKalman

/-- Math.log10 and Math.pow(10, _) used by the TVG correction; abstracted
because exact real transcendentals are not computable.  Theorems quantify over
this structure (or take branches that never consult it). -/
structure JsMath where
  log10 : ℚ → ℚ
  pow10 : ℚ → ℚ

/-- An arbitrary fixed JsMath instance used for concrete evaluations whose
code path never consults it. -/
def jmZero : JsMath := ⟨fun _ => 0, fun _ => 0⟩

/-- Absorption coefficient (ABSORPTION_COEFF, dB/m for 675kHz). -/
def ABSORPTION_COEFF : ℚ := 0.15

/-- applyTVG: depth-dependent gain compensation.  totalDepth defaults to 10 in
the source and no caller overrides it, so it is inlined as 10 here. -/
def applyTVG (jm : JsMath) (raw depthIndex : ℚ) : ℚ :=
  if depthIndex ≤ 0 ∨ raw ≤ 0 then raw
  else
    let depth := depthIndex / 90 * 10
    if depth < 0.5 then raw
    else
      let spreadingLoss := 20 * jm.log10 depth
      let absorptionLoss := ABSORPTION_COEFF * depth
      let totalLoss := spreadingLoss + absorptionLoss
      let compensation := jm.pow10 (totalLoss / 20)
      min 1000 (raw * compensation)

/-- Ascending numeric sort, modelling JavaScript sort((a, b) => a - b). -/
def jsSortAsc (l : List ℚ) : List ℚ :=
  List.insertionSort (· ≤ ·) l

/-- calculateNoiseFloor: mean of the lowest 20% of the sorted above-bottom
bins, with floors at 1.  bottomIndex may be any number; JS slice truncates a
positive fractional bound (for the integer indices actually produced by the
tracker the floor is the identity). -/
def calculateNoiseFloor (columnData : List ℚ) (bottomIndex : ℚ) : ℚ :=
  let waterColumn :=
    if 0 < bottomIndex then columnData.take (⌊bottomIndex⌋).toNat
    else columnData
  if waterColumn = [] then 1
  else
    let sorted := jsSortAsc waterColumn
    let lower20Count := max 1 (⌊(sorted.length : ℚ) * 0.2⌋).toNat
    let lower20 := sorted.take lower20Count
    let noiseFloor := lower20.sum / (lower20.length : ℚ)
    max 1 noiseFloor

/-- calculateSNR: TVG-corrected signal over the (floored) noise floor. -/
def calculateSNR (tvgSignal noiseFloor : ℚ) : ℚ :=
  tvgSignal / max 1 noiseFloor

/-- Uint8Array element store: JavaScript ToUint8 is value mod 2^8. -/
def jsToUint8 (z : ℤ) : ℤ := z % 256

/-- expandSonarSamples (sonarDataConverter.ts): linear interpolation of the
raw samples to targetDepth entries, floored, capped at 255 and stored into a
Uint8Array.  samples[i] out of range reads undefined, which the source's
v0/v1 fallback turns into 0; this is List.getD with default 0 (for the
negative index arising from an empty samples array the store is also 0). -/
def expandSonarSamples (samples : List ℚ) (targetDepth : ℕ) : List ℤ :=
  (List.range targetDepth).map fun (i : ℕ) =>
    let sourceIndex := (i : ℚ) / (targetDepth : ℚ) * (samples.length : ℚ)
    let index0 := (⌊sourceIndex⌋).toNat
    let index1 : ℤ := min ((samples.length : ℤ) - 1) ((index0 : ℤ) + 1)
    let fraction := sourceIndex - (index0 : ℚ)
    let value0 := samples.getD index0 0
    let value1 := if 0 ≤ index1 then samples.getD index1.toNat 0 else 0
    let interpolated := value0 * (1 - fraction) + value1 * fraction
    jsToUint8 (min 255 ⌊interpolated⌋)

/-- createRenderPacket: zero-filled Uint8Array for a missing/empty samples
array, otherwise expandSonarSamples. -/
def createRenderPacket (samples : List ℚ) (depthSamples : ℕ) : List ℤ :=
  if samples = [] then List.replicate depthSamples 0
  else expandSonarSamples samples depthSamples

/-- NEAR_MAX_THRESHOLD of signalToColorT03Average. -/
def NEAR_MAX_THRESHOLD : ℚ := 180

/-- The percentile base of signalToColorT03Average: values at least 2 and
strictly below MAX_RAW_SIGNAL (the out-of-range sentinel), sorted ascending. -/
def t03ValidSorted (allDepthValues : List ℚ) : List ℚ :=
  jsSortAsc (allDepthValues.filter fun v => decide (2 ≤ v ∧ v < MAX_RAW_SIGNAL))

/-- JavaScript expression sortedValues[i] || dflt: out-of-range access and a
falsy (zero) element both give the default. -/
def jsIndexOr (l : List ℚ) (i : ℕ) (dflt : ℚ) : ℚ :=
  match l.get? i with
  | some v => if v = 0 then dflt else v
  | none => dflt

/-- The findBottomEdge closure of signalToColorT03Average: near the rough
bottom index, find the start of the steepest amplitude rise; accept it only if
the gradient is at least 50, otherwise keep the rough index. -/
def findBottomEdge (allDepthValues : List ℚ) (roughBottomIndex : ℤ) : ℤ :=
  if roughBottomIndex ≤ 0 then roughBottomIndex
  else
    let roughN := roughBottomIndex.toNat
    let searchStart := roughN - 5
    let searchEnd := min (allDepthValues.length - 1) (roughN + 2)
    let best :=
      (List.range' searchStart (searchEnd - searchStart)).foldl
        (fun (st : ℚ × ℤ) i =>
          let gradient := allDepthValues.getD (i + 1) 0 - allDepthValues.getD i 0
          if st.1 < gradient then (gradient, (i : ℤ)) else st)
        (0, roughBottomIndex)
    if 50 ≤ best.1 then best.2 else roughBottomIndex

/-- Step 1 scan of signalToColorT03Average: first index holding the 255
sentinel, first index at or above NEAR_MAX_THRESHOLD, and the running
bottomPeakSignal those assignments produce (-1 encodes "not found"; the
early break of the source loop does not change the result). -/
def t03Scan (allDepthValues : List ℚ) : ℤ × ℤ × ℚ :=
  allDepthValues.enum.foldl
    (fun (st : ℤ × ℤ × ℚ) p =>
      let (first255, firstHigh, peak) := st
      let val := p.2
      let st1 : ℤ × ℚ :=
        if MAX_RAW_SIGNAL ≤ val ∧ first255 = -1 then ((p.1 : ℤ), MAX_RAW_SIGNAL)
        else (first255, peak)
      let st2 : ℤ × ℚ :=
        if NEAR_MAX_THRESHOLD ≤ val ∧ firstHigh = -1 then
          ((p.1 : ℤ), if st1.2 < val then val else st1.2)
        else (firstHigh, st1.2)
      (st1.1, st2.1, st2.2))
    (-1, -1, 0)

/-- One iteration of the Step 2 bottom-detection loop: the four conditions in
source order; some means the loop breaks with (rawBottomStartIndex,
bottomPeakSignal). -/
def t03CondStep (allDepthValues : List ℚ) (peak0 : ℚ) (i : ℕ) :
    Option (ℤ × ℚ) :=
  let current := allDepthValues.getD i 0
  let next := allDepthValues.getD (i + 1) 0
  let next2 := allDepthValues.getD (i + 2) 0
  if MAX_RAW_SIGNAL ≤ current then
    some (findBottomEdge allDepthValues (i : ℤ), current)
  else if NEAR_MAX_THRESHOLD ≤ current then
    some (findBottomEdge allDepthValues (i : ℤ), current)
  else if 100 ≤ current ∧ 100 ≤ next ∧ 100 ≤ next2 then
    some (findBottomEdge allDepthValues (i : ℤ), max current (max next next2))
  else if 100 ≤ current then
    match ([1, 2, 3].find? fun j =>
        decide (i + j < allDepthValues.length) &&
        decide (NEAR_MAX_THRESHOLD ≤ allDepthValues.getD (i + j) 0)) with
    | some j => some (findBottomEdge allDepthValues (i : ℤ),
        max peak0 (allDepthValues.getD (i + j) 0))
    | none => none
  else none

/-- The Step 2 loop over i in 0 .. length-3 with break-on-first-hit. -/
def t03DetectLoop (allDepthValues : List ℚ) (peak0 : ℚ) : Option (ℤ × ℚ) :=
  (List.range (allDepthValues.length - 2)).foldl
    (fun acc i => match acc with
      | some r => some r
      | none => t03CondStep allDepthValues peak0 i)
    none

/-- Raw bottom detection of signalToColorT03Average (Steps 1-2 plus the 255 /
near-max fallbacks): returns (rawBottomStartIndex, bottomPeakSignal). -/
def t03Detect (allDepthValues : List ℚ) : ℤ × ℚ :=
  let (first255, firstHigh, peak0) := t03Scan allDepthValues
  match t03DetectLoop allDepthValues peak0 with
  | some r => r
  | none =>
    if first255 ≠ -1 then (findBottomEdge allDepthValues first255, MAX_RAW_SIGNAL)
    else if firstHigh ≠ -1 then
      (findBottomEdge allDepthValues firstHigh,
       allDepthValues.getD firstHigh.toNat 0)
    else (-1, peak0)

/-- Bottom end computation (the body of the if bottomStartIndex is not -1
block): find the peak within 10 bins of the start, then extend while values
stay at or above 80, stopping at three consecutive values below 40.  The
tracker only produces nonnegative integer starts when it reports a bottom, so
the start is taken as a natural number. -/
def t03BottomEnd (allDepthValues : List ℚ) (bottomStart : ℕ) : ℤ :=
  let stop := min (bottomStart + 10) allDepthValues.length
  let peakIndex :=
    ((List.range' bottomStart (stop - bottomStart)).foldl
      (fun (st : ℕ × Bool) i =>
        if st.2 then st
        else if MAX_RAW_SIGNAL ≤ allDepthValues.getD i 0 then (i, true)
        else if allDepthValues.getD st.1 0 < allDepthValues.getD i 0 then
          (i, false)
        else st)
      (bottomStart, false)).1
  let ext :=
    ((List.range' (peakIndex + 1) (allDepthValues.length - 2 - (peakIndex + 1))).foldl
      (fun (st : ℕ × Bool) i =>
        if st.2 then st
        else
          let current := allDepthValues.getD i 0
          let next1 := allDepthValues.getD (i + 1) 0
          let next2 := allDepthValues.getD (i + 2) 0
          let e := if 80 ≤ current ∨ MAX_RAW_SIGNAL ≤ current then i else st.1
          if current < 40 ∧ next1 < 40 ∧ next2 < 40 then (e, true)
          else (e, false))
      (peakIndex, false)).1
  (ext : ℤ)

/-- TVG correction of the whole column (Step 3.1): the 255 sentinel passes
through uncorrected. -/
def t03TVGColumn (jm : JsMath) (allDepthValues : List ℚ) : List ℚ :=
  allDepthValues.mapIdx fun idx val =>
    if MAX_RAW_SIGNAL ≤ val then val else applyTVG jm val (idx : ℚ)

/-- The above-bottom average computed by signalToColorT03Average (sum and
count of the values strictly below the 255 sentinel over bins before the
bottom, falling back to p75 when no value qualifies).  JS indexing past the
array yields undefined which fails the value-below-sentinel test, so the loop
equals a fold over the first upperLimit elements. -/
def t03AboveBottomMean (allDepthValues : List ℚ) (bottomStartIndex : ℚ)
    (p75 : ℚ) : ℚ :=
  let upperLimit :=
    if bottomStartIndex ≠ -1 then (⌊bottomStartIndex⌋).toNat
    else allDepthValues.length
  let sc :=
    (allDepthValues.take upperLimit).foldl
      (fun (st : ℚ × ℕ) value =>
        if value < MAX_RAW_SIGNAL then (st.1 + value, st.2 + 1) else st)
      (0, 0)
  if 0 < sc.2 then sc.1 / (sc.2 : ℚ) else p75

/-- Bottom-area brown gradient of signalToColorT03Average (Step 4): tan to
peru to saddle brown to dark brown keyed by the clamped normalized signal. -/
def t03BottomColor (raw : ℚ) : ColorRGBA :=
  let normalizedSignal := min MAX_RAW_SIGNAL (max 0 raw) / MAX_RAW_SIGNAL
  if normalizedSignal < 0.1 then
    lerpColor tanBrown peruBrown (normalizedSignal / 0.1)
  else if normalizedSignal < 0.4 then
    lerpColor peruBrown saddleBrown ((normalizedSignal - 0.1) / 0.3)
  else if normalizedSignal < 0.78 then
    lerpColor saddleBrown saddleBrown ((normalizedSignal - 0.4) / 0.38)
  else
    lerpColor saddleBrown darkBrown ((normalizedSignal - 0.78) / 0.22)

/-- Depth-based averages lookup table (T03_DEPTH_AVERAGES, 90 entries). -/
def T03_DEPTH_AVERAGES : List ℚ :=
  [0, 0, 0, 0, 0, 0, 0, 0, 0, 0, 0, 0, 0, 0, 0, 0, 0, 0, 0, 0, 0, 0, 0, 0,
   0, 0, 0, 0, 0.13, 0.82, 1.77, 29.73, 29.15, 33.49, 37.21, 40.51,
   26.65, 3.1, 0.02, 0.02, 0, 0.03, 0, 0, 0, 0, 0, 0, 0, 0, 0.2, 2.09,
   15.65, 22.78, 6.07, 4.35, 8.83, 115.36, 154.15, 174.72, 176.19, 212.57,
   213.76, 209.98, 208.59, 15.23, 56.78,
   7.61, 0, 0, 0, 0, 0, 0, 0, 0.46, 0, 0, 0, 0, 0, 0, 0, 0, 0, 0, 0, 0, 0, 0]

/-- Fallback path of signalToColorT03Average (no column supplied): noise
filtering then the legacy depth-average thresholds. -/
def t03Fallback (raw depthIndex : ℚ) : ColorRGBA :=
  if raw < 0.5 then transparent
  else if raw < 2 then ⟨7, 7, 7, ⌊(raw - 0.5) / 1.5 * 80⌋⟩
  else
    let clampedDepth := (max 0 (min 89 ⌊depthIndex⌋)).toNat
    let average := T03_DEPTH_AVERAGES.getD clampedDepth 0
    if average + 96 < raw then
      lerpColor ⟨0xFF, 0x8C, 0x00, 255⟩ saddleBrown
        (min 1 ((raw - average - 96) / 96))
    else if average + 64 < raw then
      lerpColor ⟨0xCC, 0xB8, 0x00, 255⟩ ⟨0xFF, 0xFF, 0x00, 255⟩
        (min 1 ((raw - average - 64) / 32))
    else if average + 32 < raw then
      ⟨20, 20, 0, ⌊(raw - average - 32) / 32 * 120⌋⟩
    else if average + 16 < raw then
      ⟨60, 60, 60, ⌊(raw - average - 16) / 16 * 60⌋⟩
    else transparent

/-- The branch of signalToColorT03Average taken when the column has no value
in the valid percentile range (validCount = 0): if the column holds the 255
sentinel at or before depthIndex, render saddle brown, else transparent. -/
def t03EmptyValidColor (allDepthValues : List ℚ) (depthIndex : ℚ) : ColorRGBA :=
  let first255 : ℤ :=
    ((allDepthValues.enum.find? fun p => decide (MAX_RAW_SIGNAL ≤ p.2)).map
      fun p => (p.1 : ℤ)).getD (-1)
  if first255 ≠ -1 ∧ (first255 : ℚ) ≤ depthIndex then saddleBrown
  else transparent

/-- Main path of signalToColorT03Average for a nonempty column with
validCount positive: runs detection, the per-column Kalman filter (whose slot
state is the kst argument), second-reflection suppression, TVG + SNR, and the
bottom/water classification; returns the color and the new filter slot
state. -/
def t03Main (jm : JsMath) (kst : KalmanState) (raw depthIndex : ℚ)
    (allDepthValues : List ℚ) (rawRangeMin rawRangeMax sensitivity : ℚ) :
    ColorRGBA × KalmanState :=
  let sortedValues := t03ValidSorted allDepthValues
  let validCount := sortedValues.length
  let p75 := jsIndexOr sortedValues (⌊(validCount : ℚ) * 0.75⌋).toNat 32
  let det := t03Detect allDepthValues
  let rawBottomStartIndex := det.1
  let bottomPeakSignal := det.2
  let confidence := calculateBottomConfidence bottomPeakSignal
  let upd := kalmanUpdate kst (rawBottomStartIndex : ℚ) confidence
  let kst' := upd.1
  let bottomStartIndex := upd.2
  let bottomEndIndex : ℤ :=
    if bottomStartIndex ≠ -1 then
      t03BottomEnd allDepthValues (⌊bottomStartIndex⌋).toNat
    else -1
  let secondReflectionThreshold := bottomPeakSignal * 0.6
  if bottomStartIndex ≠ -1 ∧ bottomEndIndex ≠ -1 ∧
      ((bottomEndIndex : ℚ) + 3 < depthIndex) ∧ 30 < raw ∧
      raw < secondReflectionThreshold ∧ raw < NEAR_MAX_THRESHOLD then
    (transparent, kst')
  else
    let tvgCorrectedValues := t03TVGColumn jm allDepthValues
    let noiseFloor := calculateNoiseFloor tvgCorrectedValues bottomStartIndex
    let tvgSignal := applyTVG jm raw depthIndex
    let snr := calculateSNR tvgSignal noiseFloor
    let _aboveBottomAverage := t03AboveBottomMean allDepthValues bottomStartIndex p75
    let isBottomArea := bottomStartIndex ≠ -1 ∧ bottomStartIndex ≤ depthIndex
    let hasStrongSignalHere := NEAR_MAX_THRESHOLD ≤ raw ∨ MAX_RAW_SIGNAL ≤ raw
    let forceBottomArea := hasStrongSignalHere ∧ bottomStartIndex = -1
    if isBottomArea ∨ forceBottomArea then (t03BottomColor raw, kst')
    else
      let snrThreshold := 70 - sensitivity / 100 * 60
      if raw < 0.5 then (transparent, kst')
      else if snr < snrThreshold then (transparent, kst')
      else
        let isInSelectedRange := rawRangeMin ≤ raw ∧ raw ≤ rawRangeMax
        let isFullRange := rawRangeMin = 0 ∧ rawRangeMax = 255
        if ¬isFullRange ∧ ¬isInSelectedRange then (transparent, kst')
        else (getFishColorDeeper snr, kst')

/-- signalToColorT03Average: the full classifier.  Reads the per-column
Kalman filter at columnIndex (getBottomKalmanFilter) and stores its updated
state back; the empty-column fallback and the validCount-zero branch do not
touch the filter map. -/
def signalToColorT03Average (jm : JsMath) (fm : FilterMap) (raw depthIndex : ℚ)
    (allDepthValues : List ℚ) (rawRangeMin rawRangeMax columnIndex sensitivity : ℚ) :
    ColorRGBA × FilterMap :=
  if allDepthValues ≠ [] then
    if (t03ValidSorted allDepthValues).length = 0 then
      (t03EmptyValidColor allDepthValues depthIndex, fm)
    else
      let res := t03Main jm (fm columnIndex) raw depthIndex allDepthValues
        rawRangeMin rawRangeMax sensitivity
      (res.1, Function.update fm columnIndex res.2)
  else
    (t03Fallback raw depthIndex, fm)

/-- The stable (Kalman-filtered) bottom start index a classifier call
computes for the given filter map, column and column index. -/
def t03FilteredBottom (fm : FilterMap) (allDepthValues : List ℚ)
    (columnIndex : ℚ) : ℚ :=
  let det := t03Detect allDepthValues
  (kalmanUpdate (fm columnIndex) (det.1 : ℚ)
    (calculateBottomConfidence det.2)).2

/-- The noise floor a classifier call computes (Step 3.2) for the given
filter map, column and column index. -/
def t03NoiseFloorAt (jm : JsMath) (fm : FilterMap) (allDepthValues : List ℚ)
    (columnIndex : ℚ) : ℚ :=
  calculateNoiseFloor (t03TVGColumn jm allDepthValues)
    (t03FilteredBottom fm allDepthValues columnIndex)

/-- Resolution mode of RadarCanvas ("144" / "360" / "720"). -/
inductive ResolutionMode
  | r144
  | r360
  | r720
deriving DecidableEq

/-- columnWidthMap of RadarCanvas. -/
def columnWidthMap : ResolutionMode → ℕ
  | .r144 => 4
  | .r360 => 2
  | .r720 => 1

/-- depthSamplesMap of RadarCanvas. -/
def depthSamplesMap : ResolutionMode → ℕ
  | .r144 => 144
  | .r360 => 360
  | .r720 => 720

/-- The canvas ImageData, indexed flat by y * width + x (one RGBA cell per
pixel; the four channel writes of the source are one cell write here). -/
def Buffer : Type := ℕ → ColorRGBA

/-- One pixel write into the ImageData. -/
def writePx (buf : Buffer) (idx : ℕ) (c : ColorRGBA) : Buffer :=
  Function.update buf idx c

/-- renderColumn of RadarCanvas.tsx in t03Average color mode.  The per-block
amplitude (createRenderPacket expansion, downsample maximum and the
performance.now()-keyed cosmetic wave patterns of STEP 2) is abstracted as the
signalOf parameter since it depends on the wall clock; the classifier calls,
their threading of the per-column Kalman filter map (rawDepthValues is the
packet's scanData; rawRangeMin/Max, columnIndex and sensitivity take their
defaults 0, 255, 0, 50 as at the call site), the clamping of the signal, the
pixel-write loop structure and the write indices follow the source. -/
def renderColumn (jm : JsMath) (width height : ℕ) (xPosition : ℤ)
    (columnWidth depthSamples : ℕ) (signalOf : ℕ → ℚ) (scanData : List ℚ)
    (st : Buffer × FilterMap) : Buffer × FilterMap :=
  let downsample := max 1 (depthSamples / 200)
  let dCount := (depthSamples + downsample - 1) / downsample
  (List.range dCount).foldl
    (fun st1 k =>
      let d := k * downsample
      let signal := max 0 (min 255 (signalOf d))
      let y := d * height / depthSamples
      let pixelHeight :=
        (⌈(downsample : ℚ) / (depthSamples : ℚ) * (height : ℚ) * 1.2⌉).toNat
      (List.range columnWidth).foldl
        (fun st2 (px : ℕ) =>
          (List.range pixelHeight).foldl
            (fun (st3 : Buffer × FilterMap) (py : ℕ) =>
              let drawY := y + py
              if height ≤ drawY then st3
              else
                let xi : ℤ := xPosition + (px : ℤ)
                if xi < 0 ∨ (width : ℤ) ≤ xi then st3
                else
                  let raw := signal / 3.2
                  let originalDepthIndex :=
                    ⌊(d : ℚ) / (depthSamples : ℚ) * 90⌋
                  let res := signalToColorT03Average jm st3.2 raw
                    (originalDepthIndex : ℚ) scanData 0 255 0 50
                  (writePx st3.1 (drawY * width + xi.toNat) res.1, res.2))
            st2)
        st1)
    st

/-- The shift-pixels-left double loop of the sequential-playback branch:
every pixel at (x, y) with x < width - columnWidth takes the value currently
at (x + columnWidth, y), rows processed top to bottom, columns left to
right, reading the partially shifted buffer exactly as the source does. -/
def shiftLeftLoop (width columnWidth height : ℕ) (pixelData : Buffer) : Buffer :=
  (List.range height).foldl
    (fun buf y =>
      (List.range (width - columnWidth)).foldl
        (fun buf2 x =>
          writePx buf2 (y * width + x) (buf2 (y * width + x + columnWidth)))
        buf)
    pixelData

/-- State carried by the RadarCanvas render effect across invocations: the
canvas contents, the lastRenderedIndexRef watermark, and the module-level
per-column Kalman filter map of colorMapping.ts. -/
structure ComposerState where
  buffer : Buffer
  lastRenderedIndex : ℤ
  filters : FilterMap

/-- Background fill of the seek/reset branch (t03Average mode: black, alpha
255; a fresh ImageData fully overwritten by the fill loop is the constant
buffer). -/
def bgFill : Buffer := fun _ => ⟨0, 0, 0, 255⟩

/-- The seek/reset branch of the render effect in t03Average mode: fresh
background, then render the last numColumns packets left to right.  The
branch contains no call to resetBottomTracking, so the incoming per-column
filter map threads unchanged into the column renders. -/
def radarSeekRedraw (jm : JsMath) (width height : ℕ) (mode : ResolutionMode)
    (packets : List (List ℚ)) (currentIndex : ℤ) (signalOf : ℕ → ℚ)
    (filters : FilterMap) : Buffer × FilterMap :=
  let cw := columnWidthMap mode
  let ds := depthSamplesMap mode
  let numColumns := width / cw
  if packets ≠ [] ∧ 0 ≤ currentIndex then
    let startIndex := max 0 (currentIndex - numColumns + 1)
    let packetsToRender :=
      (packets.drop startIndex.toNat).take (currentIndex + 1 - startIndex).toNat
    packetsToRender.enum.foldl
      (fun st p =>
        let xPos : ℤ :=
          (width : ℤ) - ((packetsToRender.length : ℤ) - (p.1 : ℤ)) * (cw : ℤ)
        renderColumn jm width height xPos cw ds signalOf p.2 st)
      (bgFill, filters)
  else (bgFill, filters)

/-- The render effect of RadarCanvas (t03Average mode): dispatch between the
seek/reset redraw and the sequential shift-and-append branch on the
watermark comparison of the source. -/
def radarRenderStep (jm : JsMath) (width height : ℕ) (mode : ResolutionMode)
    (packets : List (List ℚ)) (currentPacket : Option (List ℚ))
    (currentIndex : ℤ) (signalOf : ℕ → ℚ) (st : ComposerState) : ComposerState :=
  let cw := columnWidthMap mode
  let ds := depthSamplesMap mode
  let isSeekOrReset := currentIndex ≤ st.lastRenderedIndex ∨
    st.lastRenderedIndex = -1 ∨ 1 < currentIndex - st.lastRenderedIndex
  if isSeekOrReset ∨ packets = [] then
    let res := radarSeekRedraw jm width height mode packets currentIndex
      signalOf st.filters
    ⟨res.1, currentIndex, res.2⟩
  else
    match currentPacket with
    | some packet =>
      if st.lastRenderedIndex < currentIndex then
        let shifted := shiftLeftLoop width cw height st.buffer
        let res := renderColumn jm width height ((width : ℤ) - (cw : ℤ)) cw ds
          signalOf packet (shifted, st.filters)
        ⟨res.1, currentIndex, res.2⟩
      else st
    | none => st

/-! Specification-side definitions: these follow the wording of the
specification (for refinement comparisons against the code-derived
definitions above) and name intermediate values of classifier calls. -/

/-- The unclamped linear interpolation value of the sample expander at target
index i (shared core of the code formula and the claim formula). -/
def expandInterp (samples : List ℚ) (targetDepth i : ℕ) : ℚ :=
  let sourceIndex := (i : ℚ) / (targetDepth : ℚ) * (samples.length : ℚ)
  let index0 := (⌊sourceIndex⌋).toNat
  let index1 : ℤ := min ((samples.length : ℤ) - 1) ((index0 : ℤ) + 1)
  let fraction := sourceIndex - (index0 : ℚ)
  let value0 := samples.getD index0 0
  let value1 := if 0 ≤ index1 then samples.getD index1.toNat 0 else 0
  value0 * (1 - fraction) + value1 * fraction

/-- The expander output as the specification claims it: the interpolated
value clamped to the valid amplitude range (no flooring). -/
def expandSpecEntry (samples : List ℚ) (targetDepth i : ℕ) : ℚ :=
  max 0 (min 255 (expandInterp samples targetDepth i))

/-- The noise-floor formula as the specification states it: the region is
bins [0, bottom) for a positive bottom and the whole column otherwise, the
estimate is max(1, mean of the lowest max(1, floor(0.2 n)) sorted values),
and 1 for an empty region. -/
def noiseFloorSpec (columnData : List ℚ) (bottomIndex : ℚ) : ℚ :=
  let region :=
    if 0 < bottomIndex then columnData.take (⌊bottomIndex⌋).toNat
    else columnData
  if region = [] then 1
  else
    let n := region.length
    let k := max 1 (⌊(n : ℚ) * 0.2⌋).toNat
    max 1 (((jsSortAsc region).take k).sum / (k : ℚ))

/-- The noise floor recomputed with the sentinel-valued bins removed from the
above-bottom region (the sentinel-exclusion reading of the specification). -/
def noiseFloorSansSentinel (columnData : List ℚ) (bottomIndex : ℚ) : ℚ :=
  let region :=
    if 0 < bottomIndex then columnData.take (⌊bottomIndex⌋).toNat
    else columnData
  let region' := region.filter fun v => decide (v < MAX_RAW_SIGNAL)
  if region' = [] then 1
  else
    let sorted := jsSortAsc region'
    let lower20Count := max 1 (⌊(sorted.length : ℚ) * 0.2⌋).toNat
    let lower20 := sorted.take lower20Count
    max 1 (lower20.sum / (lower20.length : ℚ))

/-- The above-bottom mean with the sentinel bins removed, as the
specification states it (mean over the region's non-sentinel values, p75
when none remain). -/
def aboveBottomMeanSpec (allDepthValues : List ℚ) (bottomStartIndex : ℚ)
    (p75 : ℚ) : ℚ :=
  let upperLimit :=
    if bottomStartIndex ≠ -1 then (⌊bottomStartIndex⌋).toNat
    else allDepthValues.length
  let vals := (allDepthValues.take upperLimit).filter
    fun v => decide (v < MAX_RAW_SIGNAL)
  if vals ≠ [] then vals.sum / (vals.length : ℚ) else p75

/-- The bottom end index a classifier call computes for the given filter
map, column and column index. -/
def t03BottomEndAt (fm : FilterMap) (allDepthValues : List ℚ)
    (columnIndex : ℚ) : ℤ :=
  if t03FilteredBottom fm allDepthValues columnIndex ≠ -1 then
    t03BottomEnd allDepthValues
      (⌊t03FilteredBottom fm allDepthValues columnIndex⌋).toNat
  else -1

/-- The SNR a classifier call computes for the given pixel (Step 3.3). -/
def t03SNRAt (jm : JsMath) (fm : FilterMap) (raw depthIndex : ℚ)
    (allDepthValues : List ℚ) (columnIndex : ℚ) : ℚ :=
  calculateSNR (applyTVG jm raw depthIndex)
    (t03NoiseFloorAt jm fm allDepthValues columnIndex)

/-- All four components are integers in 0..255. -/
def InRangeColor (c : ColorRGBA) : Prop :=
  0 ≤ c.r ∧ c.r ≤ 255 ∧ 0 ≤ c.g ∧ c.g ≤ 255 ∧
  0 ≤ c.b ∧ c.b ≤ 255 ∧ 0 ≤ c.a ∧ c.a ≤ 255

instance (c : ColorRGBA) : Decidable (InRangeColor c) := by
  unfold InRangeColor; infer_instance

/-- Concrete column with no detectable bottom (all mid-water values of 10,
zeros below; the nonzero values sit at bin indices at most 4 so the TVG
correction is the identity on them for every JsMath model). -/
def cexNoBottomCol : List ℚ := [10, 10, 10, 10, 10, 0, 0, 0, 0, 0]

/-- Concrete column whose raw detection yields bottom index 4 with peak 250
(edge detection pulls the condition-1 hit at bin 5 back to the steepest
rise at bin 4). -/
def cexBottomCol : List ℚ := [0, 0, 0, 0, 0, 250, 250, 250, 0, 0]

/-- Concrete 15-bin column: detection gives bottom start 4, bottom end 7. -/
def cexBottomCol15 : List ℚ :=
  [0, 0, 0, 0, 0, 250, 250, 250, 0, 0, 0, 0, 0, 0, 0]

/-- Concrete column whose raw detection yields bottom index 2 (peak 250). -/
def cexBottomAt2Col : List ℚ := [0, 0, 0, 250, 250, 250, 0, 0, 0, 0]

/-- Concrete column carrying the 255 sentinel at bins 0 and 1 and valid
values 3 at bins 2 and 3: raw detection hits the sentinel at bin 0, a zero
measurement that an initialized filter ignores (predict-only). -/
def cexSentinelCol : List ℚ := [255, 255, 3, 3, 0, 0, 0, 0, 0, 0]

/-- Concrete column with a lone strong signal of 200 at bin 0: detection
returns rough index 0, which the uninitialized filter maps to -1 (a zero
measurement is treated as absent), yet the bin itself carries 200. -/
def cexForceCol : List ℚ := [200, 3, 3, 0, 0, 0, 0, 0, 0, 0]

end SonarViewer

namespace SonarViewer

/-! Helper lemmas. -/

theorem getD_nonneg_of_bytes {l : List ℚ} (h : ∀ v ∈ l, 0 ≤ v ∧ v ≤ 255)
    (n : ℕ) : 0 ≤ l.getD n 0 := by
  rw [List.getD_eq_getElem?_getD]
  rcases hv : l[n]? with _ | v
  · simp
  · have hm := (h v (List.getElem?_mem hv)).1
    simpa using hm

theorem interp_nonneg_aux (v0 v1 f : ℚ) (h0 : 0 ≤ v0) (h1 : 0 ≤ v1)
    (hf0 : 0 ≤ f) (hf1 : f ≤ 1) : 0 ≤ v0 * (1 - f) + v1 * f := by
  nlinarith

theorem expandInterp_nonneg (samples : List ℚ) (targetDepth i : ℕ)
    (hbytes : ∀ v ∈ samples, 0 ≤ v ∧ v ≤ 255) :
    0 ≤ expandInterp samples targetDepth i := by
  have hs : (0 : ℚ) ≤ (i : ℚ) / (targetDepth : ℚ) * (samples.length : ℚ) := by
    positivity
  have hfloor : (0 : ℤ) ≤ ⌊(i : ℚ) / (targetDepth : ℚ) * (samples.length : ℚ)⌋ :=
    Int.le_floor.2 (by simpa using hs)
  have htn : (((⌊(i : ℚ) / (targetDepth : ℚ) * (samples.length : ℚ)⌋).toNat : ℚ)) =
      ((⌊(i : ℚ) / (targetDepth : ℚ) * (samples.length : ℚ)⌋ : ℤ) : ℚ) := by
    exact_mod_cast congrArg (fun z : ℤ => (z : ℚ)) (Int.toNat_of_nonneg hfloor)
  simp only [expandInterp]
  refine interp_nonneg_aux _ _ _ (getD_nonneg_of_bytes hbytes _) ?_ ?_ ?_
  · split
    · exact getD_nonneg_of_bytes hbytes _
    · exact le_refl 0
  · rw [htn]
    have := Int.floor_le ((i : ℚ) / (targetDepth : ℚ) * (samples.length : ℚ))
    linarith
  · rw [htn]
    have := Int.lt_floor_add_one ((i : ℚ) / (targetDepth : ℚ) * (samples.length : ℚ))
    linarith

/-- Claim C7, counterexample: at samples [0, 1], target length 4, index 1 the
expander outputs 0, while the claimed formula (the interpolation clamped to
the valid amplitude range) gives 1/2: the source floors the interpolated
value before storing it, which the claim omits. -/
theorem C7_counterexample :
    (expandSonarSamples [0, 1] 4).getD 1 0 = 0 ∧
    expandSpecEntry [0, 1] 4 1 = 1 / 2 ∧
    ((expandSonarSamples [0, 1] 4).getD 1 0 : ℚ) ≠ expandSpecEntry [0, 1] 4 1 := by
  decide

/-- Claim C7, amended: the expander returns exactly targetDepth values; each
output equals the interpolated value raw[i0]*(1-frac) + raw[i1]*frac FLOORED
to an integer and capped at 255 (for byte-range inputs the floor is already
nonnegative, so capping is the only clamping and the Uint8 store does not
wrap); an empty (or missing) samples array yields all-zero output; it is a
pure function with no error conditions. -/
theorem C7_expand_floored (samples : List ℚ) (targetDepth : ℕ)
    (hbytes : ∀ v ∈ samples, 0 ≤ v ∧ v ≤ 255) :
    (expandSonarSamples samples targetDepth).length = targetDepth ∧
    (∀ i, i < targetDepth →
      (expandSonarSamples samples targetDepth).getD i 0 =
        min 255 ⌊expandInterp samples targetDepth i⌋) ∧
    (samples = [] → ∀ i, (expandSonarSamples samples targetDepth).getD i 0 = 0) := by
  refine ⟨?_, ?_, ?_⟩
  · rw [expandSonarSamples, List.length_map, List.length_range]
  · intro i hi
    have hget : (expandSonarSamples samples targetDepth)[i]? =
        some (jsToUint8 (min 255 ⌊expandInterp samples targetDepth i⌋)) := by
      rw [expandSonarSamples, List.getElem?_map, List.getElem?_range hi]
      rfl
    have hz : (0 : ℤ) ≤ min 255 ⌊expandInterp samples targetDepth i⌋ := by
      refine le_min (by norm_num) (Int.le_floor.2 ?_)
      simpa using expandInterp_nonneg samples targetDepth i hbytes
    have hz' : min 255 ⌊expandInterp samples targetDepth i⌋ < 256 := by
      have := min_le_left (255 : ℤ) ⌊expandInterp samples targetDepth i⌋
      omega
    rw [List.getD_eq_getElem?_getD, hget]
    simp [jsToUint8, Int.emod_eq_of_lt hz hz']
  · intro hempty i
    subst hempty
    rcases lt_or_ge i targetDepth with hi | hi
    · have hget : (expandSonarSamples [] targetDepth)[i]? =
          some (jsToUint8 (min 255 ⌊expandInterp [] targetDepth i⌋)) := by
        rw [expandSonarSamples, List.getElem?_map, List.getElem?_range hi]
        rfl
      have hzero : expandInterp [] targetDepth i = 0 := by
        simp [expandInterp]
      rw [List.getD_eq_getElem?_getD, hget, hzero]
      decide
    · have hlen : (expandSonarSamples [] targetDepth).length ≤ i := by
        rw [expandSonarSamples, List.length_map, List.length_range]; exact hi
      rw [List.getD_eq_getElem?_getD, List.getElem?_eq_none hlen]
      rfl

/-- Witness for C7_expand_floored at samples [0, 1], target length 4. -/
theorem C7_expand_floored_witness :
    (expandSonarSamples [0, 1] 4).length = 4 ∧
    (expandSonarSamples [0, 1] 4).getD 1 0 = min 255 ⌊expandInterp [0, 1] 4 1⌋ := by
  have h := C7_expand_floored [0, 1] 4 (by decide)
  exact ⟨h.1, h.2.1 1 (by norm_num)⟩

end SonarViewer
namespace SonarViewer

theorem roundMonoQ {a b : ℚ} (h : a ≤ b) : round a ≤ round b := by
  rw [round_eq, round_eq]
  exact Int.floor_le_floor (by linarith)

/-- Claim C6: calculateNoiseFloor equals the specification formula (mean of
the lowest max(1, floor(0.2 n)) sorted above-bottom values, region [0, b)
for b > 0 and the whole column otherwise, 1 on an empty region, all floored
at 1), and in particular the estimate is always at least 1 so the downstream
SNR division never divides by zero. -/
theorem calculateNoiseFloor_spec (columnData : List ℚ) (bottomIndex : ℚ) :
    calculateNoiseFloor columnData bottomIndex =
      noiseFloorSpec columnData bottomIndex ∧
    1 ≤ calculateNoiseFloor columnData bottomIndex := by
  unfold calculateNoiseFloor noiseFloorSpec
  set region := if 0 < bottomIndex then columnData.take (⌊bottomIndex⌋).toNat
    else columnData with hregion
  clear_value region
  by_cases hr : region = []
  · simp [hr]
  · rw [if_neg hr, if_neg hr]
    dsimp only
    have hslen : (jsSortAsc region).length = region.length :=
      (List.perm_insertionSort (· ≤ ·) region).length_eq
    have hlen1 : 1 ≤ region.length := by
      have := List.length_pos.mpr hr
      omega
    have hfle : (⌊((region).length : ℚ) * 0.2⌋ : ℤ) ≤ region.length := by
      calc (⌊((region).length : ℚ) * 0.2⌋ : ℤ)
          ≤ ⌊(region.length : ℚ)⌋ := by
            apply Int.floor_le_floor
            nlinarith [Nat.cast_nonneg (α := ℚ) region.length]
        _ = region.length := Int.floor_natCast _
    have hkle : max 1 (⌊((jsSortAsc region).length : ℚ) * 0.2⌋).toNat ≤
        (jsSortAsc region).length := by
      rw [hslen]; omega
    have htake : ((jsSortAsc region).take
        (max 1 (⌊((jsSortAsc region).length : ℚ) * 0.2⌋).toNat)).length =
        max 1 (⌊((jsSortAsc region).length : ℚ) * 0.2⌋).toNat := by
      rw [List.length_take, hslen]
      omega
    rw [htake, hslen]
    exact ⟨rfl, le_max_left _ _⟩

/-- Claim C5: once a per-column bottom filter is initialized (with the
positive-variance invariant P > 0, which holds for every reachable state),
any single update call returns a stable bottom index within one bin of the
rounded prior estimate — the value every post-initialization call reports —
whether the measurement is absent, low-confidence, an outlier, or
accepted. -/
theorem kalmanUpdate_step_bounded (s : KalmanState) (measurement confidence : ℚ)
    (hinit : s.isInit = true) (hP : 0 < s.P) :
    |(kalmanUpdate s measurement confidence).2 - (round s.x : ℚ)| ≤ 1 := by
  unfold kalmanUpdate
  rw [if_neg (by simp [hinit]), if_neg (by simp [hinit])]
  by_cases hpred : measurement ≤ 0 ∨ confidence < 0.3
  · rw [if_pos hpred]
    simp
  · rw [if_neg hpred]
    by_cases hout : 1 < |measurement - s.x|
    · rw [if_pos hout]
      simp
    · rw [if_neg hout]
      push_neg at hpred hout
      have hconf : (0.3 : ℚ) ≤ confidence := hpred.2
      have hadjR : 0 < kalmanR / (confidence * (1 + ((min 10 (s.stableCount + 1) : ℕ) : ℚ) / 10)) := by
        apply div_pos
        · norm_num [kalmanR]
        · have hbonus : (0 : ℚ) ≤ ((min 10 (s.stableCount + 1) : ℕ) : ℚ) / 10 := by
            positivity
          nlinarith
      have hP1 : 0 < s.P + kalmanQ := by
        have : (0 : ℚ) < kalmanQ := by norm_num [kalmanQ]
        linarith
      set R' := kalmanR / (confidence * (1 + ((min 10 (s.stableCount + 1) : ℕ) : ℚ) / 10)) with hR'
      set P1 := s.P + kalmanQ with hP1def
      have hK0 : 0 ≤ P1 / (P1 + R') := by positivity
      have hK1 : P1 / (P1 + R') < 1 := by
        rw [div_lt_one (by linarith)]
        linarith
      set K := P1 / (P1 + R') with hKdef
      have hprod1 : K * (-1) ≤ K * (measurement - s.x) :=
        mul_le_mul_of_nonneg_left (abs_le.1 hout).1 hK0
      have hprod2 : K * (measurement - s.x) ≤ K * 1 :=
        mul_le_mul_of_nonneg_left (abs_le.1 hout).2 hK0
      have hxlow : s.x - 1 ≤ s.x + K * (measurement - s.x) := by nlinarith
      have hxhigh : s.x + K * (measurement - s.x) ≤ s.x + 1 := by nlinarith
      have h1 : round s.x - 1 ≤ round (s.x + K * (measurement - s.x)) := by
        have := roundMonoQ hxlow
        rwa [round_sub_one] at this
      have h2 : round (s.x + K * (measurement - s.x)) ≤ round s.x + 1 := by
        have := roundMonoQ hxhigh
        rwa [round_add_one] at this
      rw [abs_le]
      constructor
      · have : ((round s.x : ℤ) : ℚ) - 1 ≤ ((round (s.x + K * (measurement - s.x)) : ℤ) : ℚ) := by
          exact_mod_cast h1
        linarith
      · have : ((round (s.x + K * (measurement - s.x)) : ℤ) : ℚ) ≤ ((round s.x : ℤ) : ℚ) + 1 := by
          exact_mod_cast h2
        linarith

/-- Witness for kalmanUpdate_step_bounded: an initialized filter at estimate
4 with unit variance, fed measurement 5 at confidence 1. -/
theorem kalmanUpdate_step_bounded_witness :
    (⟨4, 1, true, 0⟩ : KalmanState).isInit = true ∧
    (0 : ℚ) < (⟨4, 1, true, 0⟩ : KalmanState).P ∧
    |(kalmanUpdate ⟨4, 1, true, 0⟩ 5 1).2 - (round ((4 : ℚ)) : ℚ)| ≤ 1 :=
  ⟨rfl, by norm_num, kalmanUpdate_step_bounded ⟨4, 1, true, 0⟩ 5 1 rfl (by norm_num)⟩

end SonarViewer
namespace SonarViewer

/-- A classifier call leaves every other column's filter slot unchanged: the
empty-column fallback and the validCount-zero branch do not touch the map,
and the main path stores only at its own columnIndex. -/
theorem t03_preserves_other_columns (jm : JsMath) (fm : FilterMap)
    (raw di : ℚ) (col : List ℚ) (rmin rmax ci sens k : ℚ) (hk : k ≠ ci) :
    (signalToColorT03Average jm fm raw di col rmin rmax ci sens).2 k = fm k := by
  unfold signalToColorT03Average
  split
  · split
    · rfl
    · dsimp only
      exact Function.update_noteq hk _ _
  · rfl

/-- The color returned by a classifier call depends on the filter map only
through the slot at its own columnIndex. -/
theorem t03_color_congr (jm : JsMath) (fm fm' : FilterMap) (raw di : ℚ)
    (col : List ℚ) (rmin rmax ci sens : ℚ) (h : fm ci = fm' ci) :
    (signalToColorT03Average jm fm raw di col rmin rmax ci sens).1 =
    (signalToColorT03Average jm fm' raw di col rmin rmax ci sens).1 := by
  unfold signalToColorT03Average
  split
  · split
    · rfl
    · dsimp only
      rw [h]
  · rfl

/-- Claim C1, counterexample: the classifier is not a pure function of its
arguments.  Starting from fresh filters, the call
(raw 0, depthIndex 5, cexNoBottomCol, range 0..255, columnIndex 0,
sensitivity 50) returns fully transparent (no bottom in the column), but
after an intervening call on the same columnIndex with cexBottomCol (which
initializes the column's Kalman filter at bottom index 4), the literally
identical call returns the opaque tan bottom color: the filter's hidden
per-column state makes depthIndex 5 fall inside a remembered bottom region
even though cexNoBottomCol itself has no bottom.  All three calls settle in
branches that never consult the abstracted Math.log10/Math.pow model, so the
fixed jmZero instance is representative of any implementation. -/
theorem C1_counterexample :
    (signalToColorT03Average jmZero resetBottomTracking 0 5 cexNoBottomCol
        0 255 0 50).1 = transparent ∧
    (signalToColorT03Average jmZero
        (signalToColorT03Average jmZero
          (signalToColorT03Average jmZero resetBottomTracking 0 5 cexNoBottomCol
            0 255 0 50).2
          0 0 cexBottomCol 0 255 0 50).2
        0 5 cexNoBottomCol 0 255 0 50).1 = ⟨210, 180, 140, 255⟩ ∧
    transparent ≠ (⟨210, 180, 140, 255⟩ : ColorRGBA) := by
  decide

/-- Claim C1, amended: the classifier is deterministic given the per-column
filter state — two calls with identical arguments return the identical RGBA
provided no classifier call with the same columnIndex occurs between them;
intervening calls on other column indices never change the result, because a
call reads and writes only its own column's filter slot.  (As stated the
claim fails: an intervening call on the same columnIndex can change the
result, see the counterexample.) -/
theorem t03_pure_across_other_columns (jm : JsMath) (fm : FilterMap)
    (raw di : ℚ) (col : List ℚ) (rmin rmax ci sens : ℚ)
    (raw' di' : ℚ) (col' : List ℚ) (rmin' rmax' ci' sens' : ℚ)
    (hne : ci' ≠ ci) :
    (signalToColorT03Average jm
        (signalToColorT03Average jm fm raw' di' col' rmin' rmax' ci' sens').2
        raw di col rmin rmax ci sens).1 =
    (signalToColorT03Average jm fm raw di col rmin rmax ci sens).1 :=
  t03_color_congr jm _ fm raw di col rmin rmax ci sens
    (t03_preserves_other_columns jm fm raw' di' col' rmin' rmax' ci' sens' ci
      (fun h => hne h.symm))

/-- Witness for t03_pure_across_other_columns: the cexNoBottomCol query of
the counterexample is unaffected by an intervening cexBottomCol call on
columnIndex 1 instead of 0. -/
theorem t03_pure_across_other_columns_witness :
    (1 : ℚ) ≠ 0 ∧
    (signalToColorT03Average jmZero
        (signalToColorT03Average jmZero resetBottomTracking 0 0 cexBottomCol
          0 255 1 50).2
        0 5 cexNoBottomCol 0 255 0 50).1 =
    (signalToColorT03Average jmZero resetBottomTracking 0 5 cexNoBottomCol
        0 255 0 50).1 :=
  ⟨by norm_num,
   t03_pure_across_other_columns jmZero resetBottomTracking 0 5 cexNoBottomCol
     0 255 0 50 0 0 cexBottomCol 0 255 1 50 (by norm_num)⟩

end SonarViewer
namespace SonarViewer

/-- In the main path (nonempty column, positive validCount) the classifier
color is the t03Main color computed on the column's own filter slot. -/
theorem t03_main_path (jm : JsMath) (fm : FilterMap) (raw di : ℚ)
    (col : List ℚ) (rmin rmax ci sens : ℚ)
    (hne : col ≠ []) (hvc : (t03ValidSorted col).length ≠ 0) :
    (signalToColorT03Average jm fm raw di col rmin rmax ci sens).1 =
      (t03Main jm (fm ci) raw di col rmin rmax sens).1 := by
  unfold signalToColorT03Average
  rw [if_pos hne, if_neg hvc]

/-- The bottom-area brown gradient is always fully opaque. -/
theorem t03BottomColor_opaque (raw : ℚ) : (t03BottomColor raw).a = 255 := by
  unfold t03BottomColor
  dsimp only
  split_ifs <;>
    simp [lerpColor, tanBrown, peruBrown, saddleBrown, darkBrown]

/-- Claim C2, counterexample: in cexBottomCol15 the filtered bottom index is
4, yet bin 11 (which is at least 4) with raw amplitude 100 is returned fully
transparent, not opaque brown: the second-reflection suppression (bin past
bottomEnd 7 + 3, amplitude in (30, 0.6 * peak 250) and below 180) runs
before the bottom-area branch.  The suppressed return happens before any TVG
computation, so jmZero is representative of any Math model. -/
theorem C2_counterexample :
    t03FilteredBottom resetBottomTracking cexBottomCol15 0 = 4 ∧
    ((4 : ℚ) ≤ 11) ∧
    (signalToColorT03Average jmZero resetBottomTracking 100 11 cexBottomCol15
        0 255 0 50).1 = transparent ∧
    transparent.a = 0 := by
  decide

/-- Claim C2, amended: for a column on the main classifier path whose
filtered bottom index b is not -1, every bin index at or past b that does
not meet the second-reflection suppression conditions (past bottomEnd + 3,
raw in (30, 0.6 * detected peak), raw below the near-max threshold) is
rendered with the bottom brown gradient, fully opaque, regardless of the
bin's own raw amplitude — in particular a zero-amplitude bin at or past b is
rendered as bottom, never as transparent background. -/
theorem t03_bottom_area_brown (jm : JsMath) (fm : FilterMap) (raw di : ℚ)
    (col : List ℚ) (rmin rmax ci sens : ℚ)
    (hne : col ≠ []) (hvc : (t03ValidSorted col).length ≠ 0)
    (hb : t03FilteredBottom fm col ci ≠ -1)
    (hle : t03FilteredBottom fm col ci ≤ di)
    (hnsr : ¬(t03BottomEndAt fm col ci ≠ -1 ∧
      ((t03BottomEndAt fm col ci : ℚ) + 3 < di) ∧ 30 < raw ∧
      raw < (t03Detect col).2 * 0.6 ∧ raw < NEAR_MAX_THRESHOLD)) :
    (signalToColorT03Average jm fm raw di col rmin rmax ci sens).1 =
      t03BottomColor raw ∧
    (signalToColorT03Average jm fm raw di col rmin rmax ci sens).1.a = 255 := by
  unfold t03FilteredBottom at hb hle
  unfold t03BottomEndAt t03FilteredBottom at hnsr
  dsimp only at hb hle hnsr
  have hcolor : (signalToColorT03Average jm fm raw di col rmin rmax ci sens).1 =
      t03BottomColor raw := by
    rw [t03_main_path jm fm raw di col rmin rmax ci sens hne hvc]
    unfold t03Main
    dsimp only
    rw [if_neg, if_pos]
    · exact Or.inl ⟨hb, hle⟩
    · intro hfull
      exact hnsr ⟨hfull.2.1, hfull.2.2.1, hfull.2.2.2.1, hfull.2.2.2.2.1,
        hfull.2.2.2.2.2⟩
  exact ⟨hcolor, by rw [hcolor]; exact t03BottomColor_opaque raw⟩

/-- Witness for t03_bottom_area_brown: cexBottomCol15 at bin 5 with raw 0 is
rendered opaque brown. -/
theorem t03_bottom_area_brown_witness :
    (signalToColorT03Average jmZero resetBottomTracking 0 5 cexBottomCol15
        0 255 0 50).1 = t03BottomColor 0 ∧
    (signalToColorT03Average jmZero resetBottomTracking 0 5 cexBottomCol15
        0 255 0 50).1.a = 255 :=
  t03_bottom_area_brown jmZero resetBottomTracking 0 5 cexBottomCol15 0 255 0 50
    (by decide) (by decide) (by decide) (by decide) (by decide)

end SonarViewer
namespace SonarViewer

/-- Claim C9, counterexample: cexForceCol has filtered bottom index -1 (the
rough detection lands on index 0, which the tracker treats as an absent
measurement), yet its bin 0 with raw amplitude 200 is rendered with the
opaque bottom brown gradient — the forceBottomArea branch colors any bin
with raw at or above the near-max threshold as bottom even when no bottom
was detected — and that color is neither transparent background nor the SNR
fish color of the call.  Every TVG branch taken for this column is the
identity, so jmZero is representative of any Math model. -/
theorem C9_counterexample :
    t03FilteredBottom resetBottomTracking cexForceCol 0 = -1 ∧
    (signalToColorT03Average jmZero resetBottomTracking 200 0 cexForceCol
        0 255 0 50).1 = t03BottomColor 200 ∧
    t03BottomColor 200 = ⟨138, 69, 19, 255⟩ ∧
    t03BottomColor 200 ≠ transparent ∧
    t03BottomColor 200 ≠
      getFishColorDeeper (t03SNRAt jmZero resetBottomTracking 200 0 cexForceCol 0) := by
  decide

/-- Claim C9, amended: for a column on the main classifier path in which no
bottom is detected (filtered bottom index -1), every bin whose raw amplitude
is below the near-max threshold 180 is treated as water: it is classified as
transparent background or via the SNR path as a fish color, never as bottom.
(Bins with raw at or above 180 are instead forced to the bottom color by the
forceBottomArea branch, see the counterexample.) -/
theorem t03_no_bottom_water (jm : JsMath) (fm : FilterMap) (raw di : ℚ)
    (col : List ℚ) (rmin rmax ci sens : ℚ)
    (hne : col ≠ []) (hvc : (t03ValidSorted col).length ≠ 0)
    (hb : t03FilteredBottom fm col ci = -1)
    (hraw : raw < NEAR_MAX_THRESHOLD) :
    (signalToColorT03Average jm fm raw di col rmin rmax ci sens).1 =
      transparent ∨
    (signalToColorT03Average jm fm raw di col rmin rmax ci sens).1 =
      getFishColorDeeper (t03SNRAt jm fm raw di col ci) := by
  unfold t03FilteredBottom at hb
  dsimp only at hb
  have hraw' : raw < 180 := by
    rw [NEAR_MAX_THRESHOLD] at hraw
    exact hraw
  unfold t03SNRAt t03NoiseFloorAt t03FilteredBottom
  dsimp only
  rw [t03_main_path jm fm raw di col rmin rmax ci sens hne hvc]
  unfold t03Main
  dsimp only
  rw [hb]
  rw [if_neg (by norm_num : ¬((-1 : ℚ) ≠ -1))]
  rw [if_neg (fun h => absurd rfl h.1)]
  have hnb : ¬(((-1 : ℚ) ≠ -1 ∧ (-1 : ℚ) ≤ di) ∨
      ((NEAR_MAX_THRESHOLD ≤ raw ∨ MAX_RAW_SIGNAL ≤ raw) ∧ (-1 : ℚ) = -1)) := by
    rintro (⟨h, _⟩ | ⟨hs | hs, _⟩)
    · exact h rfl
    · rw [NEAR_MAX_THRESHOLD] at hs
      linarith
    · rw [MAX_RAW_SIGNAL] at hs
      linarith
  rw [if_neg hnb]
  split_ifs
  · left; rfl
  · left; rfl
  · left; rfl
  · right; rfl

/-- Witness for t03_no_bottom_water at cexNoBottomCol, raw 10, bin 3. -/
theorem t03_no_bottom_water_witness :
    (signalToColorT03Average jmZero resetBottomTracking 10 3 cexNoBottomCol
        0 255 0 50).1 = transparent ∨
    (signalToColorT03Average jmZero resetBottomTracking 10 3 cexNoBottomCol
        0 255 0 50).1 =
      getFishColorDeeper (t03SNRAt jmZero resetBottomTracking 10 3 cexNoBottomCol 0) :=
  t03_no_bottom_water jmZero resetBottomTracking 10 3 cexNoBottomCol 0 255 0 50
    (by decide) (by decide) (by decide) (by decide)

end SonarViewer
namespace SonarViewer

/-- The sum-and-count loop of the above-bottom average equals sum and length
of the sentinel-filtered list. -/
theorem sumcount_fold_eq_filter (l : List ℚ) (s0 : ℚ) (n0 : ℕ) :
    l.foldl (fun (st : ℚ × ℕ) value =>
      if value < MAX_RAW_SIGNAL then (st.1 + value, st.2 + 1) else st) (s0, n0) =
    (s0 + ((l.filter fun v => decide (v < MAX_RAW_SIGNAL)).sum),
     n0 + (l.filter fun v => decide (v < MAX_RAW_SIGNAL)).length) := by
  induction l generalizing s0 n0 with
  | nil => simp
  | cons a t ih =>
    simp only [List.foldl_cons, List.filter_cons]
    by_cases h : a < MAX_RAW_SIGNAL
    · rw [if_pos h, ih, if_pos (by simpa using h)]
      simp only [List.sum_cons, List.length_cons, Prod.mk.injEq]
      constructor
      · ring
      · omega
    · rw [if_neg h, ih, if_neg (by simpa using h)]

/-- Claim C3, counterexample (noise-floor part): after a call on
cexBottomAt2Col initializes column 0's filter at bottom index 2, the
classifier working on cexSentinelCol keeps bottom index 2 (the sentinel at
bin 0 yields measurement 0, which the initialized filter ignores), so the
above-bottom region is the two sentinel bins themselves: the computed noise
floor is 255, while removing the sentinel bins from the region yields the
defaulted floor 1 — the sentinel DOES contribute to the noise floor.  Every
TVG branch taken on these columns is the identity, so jmZero is
representative of any Math model. -/
theorem C3_counterexample :
    t03FilteredBottom
      ((signalToColorT03Average jmZero resetBottomTracking 0 0 cexBottomAt2Col
        0 255 0 50).2) cexSentinelCol 0 = 2 ∧
    t03NoiseFloorAt jmZero
      ((signalToColorT03Average jmZero resetBottomTracking 0 0 cexBottomAt2Col
        0 255 0 50).2) cexSentinelCol 0 = 255 ∧
    noiseFloorSansSentinel (t03TVGColumn jmZero cexSentinelCol)
      (t03FilteredBottom
        ((signalToColorT03Average jmZero resetBottomTracking 0 0 cexBottomAt2Col
          0 255 0 50).2) cexSentinelCol 0) = 1 ∧
    (255 : ℚ) ≠ 1 := by
  decide

/-- Claim C3, amended: the above-bottom average always excludes the
sentinel: it equals the mean of the sentinel-filtered above-bottom region
(with the p75 fallback when nothing remains), so removing sentinel-valued
bins from the region never changes it.  The noise floor, by contrast, does
not filter the sentinel (see the counterexample). -/
theorem t03AboveBottomMean_excludes_sentinel (col : List ℚ) (b p75 : ℚ) :
    t03AboveBottomMean col b p75 = aboveBottomMeanSpec col b p75 := by
  unfold t03AboveBottomMean aboveBottomMeanSpec
  dsimp only
  rw [sumcount_fold_eq_filter]
  simp only [zero_add]
  by_cases h : ((col.take (if b ≠ -1 then (⌊b⌋).toNat else col.length)).filter
      fun v => decide (v < MAX_RAW_SIGNAL)) = []
  · rw [h]
    simp
  · rw [if_pos (List.length_pos.mpr h), if_pos h]

end SonarViewer
namespace SonarViewer

theorem floor_nonneg_of (x : ℚ) (h : 0 ≤ x) : 0 ≤ ⌊x⌋ :=
  Int.le_floor.2 (by exact_mod_cast h)

theorem floor_le_255_of (x : ℚ) (h : x < 256) : ⌊x⌋ ≤ 255 := by
  have : ⌊x⌋ < (256 : ℤ) := Int.floor_lt.2 (by exact_mod_cast h)
  omega

theorem round_component_bounds (a b : ℤ) (ct : ℚ) (ha : 0 ≤ a) (ha' : a ≤ 255)
    (hb : 0 ≤ b) (hb' : b ≤ 255) (h0 : 0 ≤ ct) (h1 : ct ≤ 1) :
    0 ≤ round ((a : ℚ) + ((b : ℚ) - (a : ℚ)) * ct) ∧
    round ((a : ℚ) + ((b : ℚ) - (a : ℚ)) * ct) ≤ 255 := by
  have hA : (0 : ℚ) ≤ (a : ℚ) := by exact_mod_cast ha
  have hA' : (a : ℚ) ≤ 255 := by exact_mod_cast ha'
  have hB : (0 : ℚ) ≤ (b : ℚ) := by exact_mod_cast hb
  have hB' : (b : ℚ) ≤ 255 := by exact_mod_cast hb'
  have hv0 : (0 : ℚ) ≤ (a : ℚ) + ((b : ℚ) - (a : ℚ)) * ct := by
    nlinarith [mul_nonneg (by linarith : (0 : ℚ) ≤ 1 - ct) hA, mul_nonneg h0 hB]
  have hv1 : (a : ℚ) + ((b : ℚ) - (a : ℚ)) * ct ≤ 255 := by
    nlinarith [mul_le_mul_of_nonneg_left hA' (by linarith : (0 : ℚ) ≤ 1 - ct),
      mul_le_mul_of_nonneg_left hB' h0]
  constructor
  · have := roundMonoQ hv0
    rwa [round_zero] at this
  · have := roundMonoQ hv1
    rwa [show round ((255 : ℚ)) = 255 by norm_num [round_eq]] at this

/-- lerpColor keeps in-range colors in range, for every interpolation
factor (the factor is clamped internally). -/
theorem lerpColor_inRange (c1 c2 : ColorRGBA) (t : ℚ)
    (h1 : InRangeColor c1) (h2 : InRangeColor c2) :
    InRangeColor (lerpColor c1 c2 t) := by
  obtain ⟨r1, r1', g1, g1', b1, b1', a1, a1'⟩ := h1
  obtain ⟨r2, r2', g2, g2', b2, b2', a2, a2'⟩ := h2
  have h0 : 0 ≤ max 0 (min 1 t) := le_max_left _ _
  have h1' : max 0 (min 1 t) ≤ 1 := max_le (by norm_num) (min_le_left _ _)
  unfold lerpColor
  exact ⟨(round_component_bounds _ _ _ r1 r1' r2 r2' h0 h1').1,
    (round_component_bounds _ _ _ r1 r1' r2 r2' h0 h1').2,
    (round_component_bounds _ _ _ g1 g1' g2 g2' h0 h1').1,
    (round_component_bounds _ _ _ g1 g1' g2 g2' h0 h1').2,
    (round_component_bounds _ _ _ b1 b1' b2 b2' h0 h1').1,
    (round_component_bounds _ _ _ b1 b1' b2 b2' h0 h1').2,
    (round_component_bounds _ _ _ a1 a1' a2 a2' h0 h1').1,
    (round_component_bounds _ _ _ a1 a1' a2 a2' h0 h1').2⟩

theorem getFishColorDeeper_inRange (snr : ℚ) :
    InRangeColor (getFishColorDeeper snr) := by
  unfold getFishColorDeeper
  split_ifs with h1 h2 h3 h4 h5 h6
  · decide
  · rw [not_lt] at h1
    exact ⟨floor_nonneg_of _ (by linarith), floor_le_255_of _ (by linarith),
      floor_nonneg_of _ (by linarith), floor_le_255_of _ (by linarith),
      by norm_num, by norm_num,
      floor_nonneg_of _ (by linarith), floor_le_255_of _ (by linarith)⟩
  · rw [not_lt] at h2
    exact ⟨floor_nonneg_of _ (by linarith), floor_le_255_of _ (by linarith),
      floor_nonneg_of _ (by linarith), floor_le_255_of _ (by linarith),
      by norm_num, by norm_num, by norm_num, by norm_num⟩
  · rw [not_lt] at h3
    exact ⟨floor_nonneg_of _ (by linarith), floor_le_255_of _ (by linarith),
      floor_nonneg_of _ (by linarith), floor_le_255_of _ (by linarith),
      floor_nonneg_of _ (by linarith), floor_le_255_of _ (by linarith),
      by norm_num, by norm_num⟩
  · rw [not_lt] at h4
    exact ⟨floor_nonneg_of _ (by linarith), floor_le_255_of _ (by linarith),
      by norm_num, by norm_num,
      floor_nonneg_of _ (by linarith), floor_le_255_of _ (by linarith),
      by norm_num, by norm_num⟩
  · rw [not_lt] at h5
    exact ⟨floor_nonneg_of _ (by linarith), floor_le_255_of _ (by linarith),
      by norm_num, by norm_num,
      floor_nonneg_of _ (by linarith), floor_le_255_of _ (by linarith),
      by norm_num, by norm_num⟩
  · rw [not_lt] at h6
    have ht0 : 0 ≤ min 1 ((snr - 35) / 25) := le_min (by norm_num) (by linarith)
    have ht1 : min 1 ((snr - 35) / 25) ≤ 1 := min_le_left _ _
    exact ⟨floor_nonneg_of _ (by linarith), floor_le_255_of _ (by linarith),
      by norm_num, by norm_num,
      floor_nonneg_of _ (by linarith), floor_le_255_of _ (by linarith),
      by norm_num, by norm_num⟩

theorem findStopColor_inRange (norm : ℚ) (stops : List (ℚ × ColorRGBA))
    (h : ∀ p ∈ stops, InRangeColor p.2) :
    InRangeColor (findStopColor norm stops) := by
  induction stops with
  | nil => exact (by decide : InRangeColor (⟨0, 0, 0, 0⟩ : ColorRGBA))
  | cons s1 rest ih =>
    cases rest with
    | nil =>
      simp only [findStopColor]
      exact h s1 (by simp)
    | cons s2 rest2 =>
      simp only [findStopColor]
      split_ifs
      · exact lerpColor_inRange _ _ _ (h s1 (by simp)) (h s2 (by simp))
      · exact lerpColor_inRange _ _ _ (h s1 (by simp)) (h s2 (by simp))
      · exact ih fun p hp => h p (List.mem_cons_of_mem _ hp)

theorem colorStops_inRange : ∀ p ∈ colorStops, InRangeColor p.2 := by
  decide

theorem getColorForRawSignal_inRange (raw dr : ℚ) :
    InRangeColor (getColorForRawSignal raw dr) := by
  unfold getColorForRawSignal
  dsimp only
  exact findStopColor_inRange _ _ colorStops_inRange

theorem ite_inRangeColor {c : Prop} [Decidable c] {a b : ColorRGBA}
    (ha : InRangeColor a) (hb : InRangeColor b) :
    InRangeColor (if c then a else b) := by
  split
  · exact ha
  · exact hb

theorem signalToColorIceFishing_inRange (signal : ℚ) :
    InRangeColor (signalToColorIceFishing signal) := by
  unfold signalToColorIceFishing
  dsimp only
  repeat' apply ite_inRangeColor
  all_goals decide

theorem getBottomTextureColor_inRange (raw : ℚ) :
    InRangeColor (getBottomTextureColor raw) := by
  unfold getBottomTextureColor
  have hs0 : 0 ≤ max 0 (min 1 (raw / MAX_RAW_SIGNAL)) := le_max_left _ _
  have hs1 : max 0 (min 1 (raw / MAX_RAW_SIGNAL)) ≤ 1 :=
    max_le (by norm_num) (min_le_left _ _)
  set s := max 0 (min 1 (raw / MAX_RAW_SIGNAL)) with hsdef
  have hr0 : (0 : ℚ) ≤ 168 * (1 - s * 0.15) + s * 20 := by ring_nf; nlinarith [hs0, hs1]
  have hg0 : (0 : ℚ) ≤ 101 * (1 - s * 0.15) := by ring_nf; nlinarith [hs0, hs1]
  have hg1 : 101 * (1 - s * 0.15) ≤ 255 := by ring_nf; nlinarith [hs0, hs1]
  have hb0 : (0 : ℚ) ≤ 46 * (1 - s * 0.15) := by ring_nf; nlinarith [hs0, hs1]
  have hb1 : 46 * (1 - s * 0.15) ≤ 255 := by ring_nf; nlinarith [hs0, hs1]
  refine ⟨le_min (by norm_num) ?_, min_le_left _ _, ?_, ?_, ?_, ?_,
    by norm_num, by norm_num⟩
  · have := roundMonoQ hr0
    rwa [round_zero] at this
  · have := roundMonoQ hg0
    rwa [round_zero] at this
  · have := roundMonoQ hg1
    rwa [show round ((255 : ℚ)) = 255 by norm_num [round_eq]] at this
  · have := roundMonoQ hb0
    rwa [round_zero] at this
  · have := roundMonoQ hb1
    rwa [show round ((255 : ℚ)) = 255 by norm_num [round_eq]] at this

theorem t03BottomColor_inRange (raw : ℚ) : InRangeColor (t03BottomColor raw) := by
  unfold t03BottomColor
  dsimp only
  split_ifs <;> (apply lerpColor_inRange <;> decide)

theorem t03Fallback_inRange (raw di : ℚ) : InRangeColor (t03Fallback raw di) := by
  unfold t03Fallback
  dsimp only
  split_ifs with h1 h2 h3 h4 h5
  · decide
  · rw [not_lt] at h1
    exact ⟨by norm_num, by norm_num, by norm_num, by norm_num, by norm_num,
      by norm_num, floor_nonneg_of _ (by ring_nf; linarith),
      floor_le_255_of _ (by ring_nf; linarith)⟩
  · apply lerpColor_inRange <;> decide
  · apply lerpColor_inRange <;> decide
  · exact ⟨by norm_num, by norm_num, by norm_num, by norm_num, by norm_num,
      by norm_num, floor_nonneg_of _ (by ring_nf; linarith),
      floor_le_255_of _ (by ring_nf; linarith)⟩
  · exact ⟨by norm_num, by norm_num, by norm_num, by norm_num, by norm_num,
      by norm_num, floor_nonneg_of _ (by ring_nf; linarith),
      floor_le_255_of _ (by ring_nf; linarith)⟩
  · decide

theorem t03EmptyValidColor_inRange (col : List ℚ) (di : ℚ) :
    InRangeColor (t03EmptyValidColor col di) := by
  unfold t03EmptyValidColor
  dsimp only
  split_ifs <;> decide

theorem t03Main_inRange (jm : JsMath) (kst : KalmanState) (raw di : ℚ)
    (col : List ℚ) (rmin rmax sens : ℚ) :
    InRangeColor (t03Main jm kst raw di col rmin rmax sens).1 := by
  unfold t03Main
  dsimp only
  split_ifs <;>
    first
      | exact (by decide : InRangeColor transparent)
      | exact t03BottomColor_inRange raw
      | exact getFishColorDeeper_inRange _

theorem signalToColorT03Average_inRange (jm : JsMath) (fm : FilterMap)
    (raw di : ℚ) (col : List ℚ) (rmin rmax ci sens : ℚ) :
    InRangeColor (signalToColorT03Average jm fm raw di col rmin rmax ci sens).1 := by
  unfold signalToColorT03Average
  split
  · split
    · exact t03EmptyValidColor_inRange _ _
    · exact t03Main_inRange _ _ _ _ _ _ _ _
  · exact t03Fallback_inRange _ _

/-- Claim C10: every color-returning function of the color-mapping module
returns, for every rational input (negative, fractional and above-range
amplitudes and SNR values included), an RGBA value whose components are
integers (they are built with floor/round and integer literals, hence the
integer component type of the model) in 0..255.  For lerpColor this holds
for arbitrary interpolation factors whenever its two color arguments are in
range, as they are for every palette color of the module. -/
theorem colorMapping_components_in_range :
    (∀ c1 c2 t, InRangeColor c1 → InRangeColor c2 →
      InRangeColor (lerpColor c1 c2 t)) ∧
    (∀ snr, InRangeColor (getFishColorDeeper snr)) ∧
    (∀ raw dr, InRangeColor (getColorForRawSignal raw dr)) ∧
    (∀ signal dr, InRangeColor (signalToColor signal dr)) ∧
    (∀ signal, InRangeColor (signalToColorIceFishing signal)) ∧
    (∀ raw, InRangeColor (getBottomTextureColor raw)) ∧
    (∀ jm fm raw di col rmin rmax ci sens,
      InRangeColor (signalToColorT03Average jm fm raw di col rmin rmax ci sens).1) :=
  ⟨fun c1 c2 t h1 h2 => lerpColor_inRange c1 c2 t h1 h2,
   getFishColorDeeper_inRange,
   getColorForRawSignal_inRange,
   fun _signal dr => getColorForRawSignal_inRange _ dr,
   signalToColorIceFishing_inRange,
   getBottomTextureColor_inRange,
   signalToColorT03Average_inRange⟩

/-- Witness for colorMapping_components_in_range: the lerpColor conjunct
applied to tan and dark brown at factor 1/3, hypotheses checked by
computation. -/
theorem colorMapping_components_in_range_witness :
    InRangeColor (lerpColor tanBrown darkBrown (1 / 3)) :=
  colorMapping_components_in_range.1 tanBrown darkBrown (1 / 3)
    (by decide) (by decide)

end SonarViewer
namespace SonarViewer

/-- A fold whose every step leaves a given view unchanged leaves it
unchanged. -/
theorem foldl_view_preserve {α σ : Type} (view : σ → ColorRGBA)
    (f : σ → α → σ) (l : List α) (s : σ)
    (h : ∀ s' a, a ∈ l → view (f s' a) = view s') :
    view (l.foldl f s) = view s := by
  induction l generalizing s with
  | nil => rfl
  | cons a t ih =>
    rw [List.foldl_cons,
      ih _ fun s' a' ha' => h s' a' (List.mem_cons_of_mem _ ha'),
      h s a (List.mem_cons_self _ _)]

/-- Row/column decomposition of flat pixel indices is injective. -/
theorem rowmod (width y x : ℕ) (hx : x < width) :
    (y * width + x) % width = x := by
  rw [Nat.add_comm, Nat.mul_comm, Nat.add_mul_mod_self_left,
    Nat.mod_eq_of_lt hx]

theorem rowcol_inj {width y x y' x' : ℕ} (hx : x < width) (hx' : x' < width)
    (h : y * width + x = y' * width + x') : y = y' ∧ x = x' := by
  have hw : 0 < width := by omega
  have h1 : (y * width + x) / width = y := by
    rw [Nat.add_comm, Nat.add_mul_div_right _ _ hw, Nat.div_eq_of_lt hx]
    omega
  have h2 : (y' * width + x') / width = y' := by
    rw [Nat.add_comm, Nat.add_mul_div_right _ _ hw, Nat.div_eq_of_lt hx']
    omega
  have hy : y = y' := by rw [← h1, ← h2, h]
  subst hy
  exact ⟨rfl, by omega⟩

/-- renderColumn writes only pixels of columns at or right of xPosition: any
pixel whose column index is left of a nonnegative xPosition is untouched. -/
theorem renderColumn_preserves_left (jm : JsMath) (width height : ℕ)
    (xPosition : ℤ) (columnWidth depthSamples : ℕ) (signalOf : ℕ → ℚ)
    (scanData : List ℚ) (st : Buffer × FilterMap) (idx : ℕ)
    (hidx : ((idx % width : ℕ) : ℤ) < xPosition) :
    (renderColumn jm width height xPosition columnWidth depthSamples signalOf
      scanData st).1 idx = st.1 idx := by
  unfold renderColumn
  dsimp only
  refine foldl_view_preserve (fun (s : Buffer × FilterMap) => s.1 idx) _ _ _ ?_
  intro s1 k _
  refine foldl_view_preserve (fun (s : Buffer × FilterMap) => s.1 idx) _ _ _ ?_
  intro s2 px _
  refine foldl_view_preserve (fun (s : Buffer × FilterMap) => s.1 idx) _ _ _ ?_
  intro s3 py _
  dsimp only
  split
  · rfl
  · split
    · rfl
    · rename_i hy hxi
      dsimp only [writePx]
      apply Function.update_noteq
      push_neg at hxi
      obtain ⟨hxi0, hxiw⟩ := hxi
      have htn : (((xPosition + (px : ℤ)).toNat : ℤ)) = xPosition + (px : ℤ) :=
        Int.toNat_of_nonneg hxi0
      have hxiw' : (xPosition + (px : ℤ)).toNat < width := by omega
      intro hcontra
      have hmod : idx % width = (xPosition + (px : ℤ)).toNat := by
        rw [hcontra, rowmod _ _ _ hxiw']
      rw [hmod] at hidx
      omega

/-- One shift row moves pixels x < n of row y one columnWidth left, reading
original values: within a row every read position is right of every write
already performed, and other rows are untouched. -/
theorem shiftRow_spec (width cw y : ℕ) :
    ∀ (n : ℕ), n + cw ≤ width → ∀ (buf : Buffer) (y' x : ℕ), x < width →
      ((List.range n).foldl
        (fun b2 x' => writePx b2 (y * width + x') (b2 (y * width + x' + cw)))
        buf) (y' * width + x) =
      (if y' = y ∧ x < n then buf (y' * width + x + cw)
       else buf (y' * width + x)) := by
  intro n
  induction n with
  | zero =>
    intro _ buf y' x hx
    simp
  | succ m ih =>
    intro hn buf y' x hx
    rw [List.range_succ, List.foldl_append, List.foldl_cons, List.foldl_nil]
    have hm : m + cw ≤ width := by omega
    have hread : ((List.range m).foldl
        (fun b2 x' => writePx b2 (y * width + x') (b2 (y * width + x' + cw)))
        buf) (y * width + m + cw) = buf (y * width + m + cw) := by
      rw [Nat.add_assoc, ih hm buf y (m + cw) (by omega), if_neg (by omega),
        ← Nat.add_assoc]
    by_cases heq : y' * width + x = y * width + m
    · obtain ⟨hy', hx'⟩ := rowcol_inj hx (by omega) heq
      subst hy'
      subst hx'
      rw [writePx, Function.update_same, hread, if_pos ⟨rfl, by omega⟩]
    · rw [writePx, Function.update_noteq heq, ih hm buf y' x hx]
      by_cases hcond : y' = y ∧ x < m + 1
      · obtain ⟨hy', hxm⟩ := hcond
        subst hy'
        have hxm' : x < m := by
          rcases Nat.lt_succ_iff_lt_or_eq.1 hxm with h | h
          · exact h
          · exact absurd (by rw [h]) heq
        rw [if_pos ⟨rfl, hxm'⟩, if_pos ⟨rfl, hxm⟩]
      · have hnot : ¬(y' = y ∧ x < m) := fun hp => hcond ⟨hp.1, by omega⟩
        rw [if_neg hnot, if_neg hcond]

/-- The shift-left double loop: pixel (x, y) with x < width - columnWidth
takes the old value of (x + columnWidth, y); all other pixels keep their
values. -/
theorem shiftLeftLoop_spec (width cw : ℕ) (hcw : cw ≤ width) :
    ∀ (height : ℕ) (buf : Buffer) (y x : ℕ), x < width →
      shiftLeftLoop width cw height buf (y * width + x) =
      if y < height ∧ x < width - cw then buf (y * width + x + cw)
      else buf (y * width + x) := by
  intro height
  induction height with
  | zero =>
    intro buf y x hx
    unfold shiftLeftLoop
    simp
  | succ h ih =>
    intro buf y x hx
    unfold shiftLeftLoop at ih ⊢
    rw [List.range_succ, List.foldl_append, List.foldl_cons, List.foldl_nil]
    rw [shiftRow_spec width cw h (width - cw) (by omega) _ y x hx]
    by_cases hrow : y = h ∧ x < width - cw
    · obtain ⟨hy', hxlt⟩ := hrow
      subst hy'
      rw [if_pos ⟨rfl, hxlt⟩, Nat.add_assoc, ih buf y (x + cw) (by omega),
        if_neg (by omega), ← Nat.add_assoc, if_pos ⟨by omega, hxlt⟩]
    · rw [if_neg hrow, ih buf y x hx]
      by_cases hc : y < h + 1 ∧ x < width - cw
      · have hyneh : y ≠ h := fun he => hrow ⟨he, hc.2⟩
        rw [if_pos ⟨by omega, hc.2⟩, if_pos hc]
      · have hnot : ¬(y < h ∧ x < width - cw) := fun hp => hc ⟨by omega, hp.2⟩
        rw [if_neg hnot, if_neg hc]

/-- Claim C8: on a sequential advance (current index equals the watermark
plus one, watermark initialized, packets present, current packet present),
every pixel at (x, y) with x + columnWidth < width afterwards holds the
value previously at (x + columnWidth, y): the whole buffer shifts left by
one column width, and newly rendered values land only in the rightmost
columnWidth-wide column (renderColumn writes only at column indices at or
right of width - columnWidth). -/
theorem radar_sequential_shift (jm : JsMath) (width height : ℕ)
    (mode : ResolutionMode) (packets : List (List ℚ)) (packet : List ℚ)
    (currentIndex : ℤ) (signalOf : ℕ → ℚ) (st : ComposerState) (x y : ℕ)
    (hlast : 0 ≤ st.lastRenderedIndex)
    (hidx : currentIndex = st.lastRenderedIndex + 1)
    (hpk : packets ≠ [])
    (hy : y < height)
    (hx : x + columnWidthMap mode < width) :
    (radarRenderStep jm width height mode packets (some packet) currentIndex
      signalOf st).buffer (y * width + x) =
    st.buffer (y * width + (x + columnWidthMap mode)) := by
  unfold radarRenderStep
  dsimp only
  rw [if_neg]
  · rw [if_pos (by omega)]
    dsimp only
    rw [renderColumn_preserves_left]
    · dsimp only
      rw [shiftLeftLoop_spec width (columnWidthMap mode) (by omega) height
        st.buffer y x (by omega)]
      rw [if_pos ⟨hy, by omega⟩, Nat.add_assoc]
    · rw [rowmod width y x (by omega)]
      omega
  · rintro (⟨h | h | h⟩ | hp)
    · omega
    · omega
    · omega
    · exact hpk hp

/-- Witness for radar_sequential_shift: a 2 x 1 canvas in 720 mode (column
width 1), one packet, watermark 0 advancing to 1: pixel 0 takes the old
pixel 1. -/
theorem radar_sequential_shift_witness :
    (radarRenderStep jmZero 2 1 ResolutionMode.r720 [[0]] (some [0]) 1
      (fun _ => 0)
      ⟨fun idx => if idx = 1 then ⟨9, 9, 9, 9⟩ else transparent, 0,
        resetBottomTracking⟩).buffer (0 * 2 + 0) =
    (fun idx => if idx = 1 then (⟨9, 9, 9, 9⟩ : ColorRGBA) else transparent)
      (0 * 2 + (0 + columnWidthMap ResolutionMode.r720)) :=
  radar_sequential_shift jmZero 2 1 ResolutionMode.r720 [[0]] [0] 1
    (fun _ => 0)
    ⟨fun idx => if idx = 1 then ⟨9, 9, 9, 9⟩ else transparent, 0,
      resetBottomTracking⟩ 0 0
    (by norm_num) (by norm_num) (by simp) (by norm_num) (by decide)

end SonarViewer
namespace SonarViewer

/-- Claim C4 (code bug): resetBottomTracking is never invoked anywhere in
the repository, so on a Reset/Seek event (and on a data-source change) the
per-column bottom-tracking filters are NOT cleared before the visible
columns are recomputed — the seek/reset branch threads the incoming filter
map unchanged into the redraw.  Concretely: a backward seek (current index
0, watermark 5) satisfies the seek/reset condition; the redraw keeps a
column-0 filter initialized at bottom index 4 instead of a fresh one; and
the classifier call the redraw performs on the bottom display row of a
single-ping column [3] (raw 0, bin 89 — a column with no detectable bottom)
returns the opaque tan bottom color under the stale filter, whereas under
the reset the claim mandates it returns transparent.  The branches taken
never consult the abstracted Math model, so jmZero is representative. -/
theorem radar_seek_stale_filters :
    ((0 : ℤ) ≤ 5 ∨ (5 : ℤ) = -1 ∨ 1 < (0 : ℤ) - 5) ∧
    ((radarSeekRedraw jmZero 1 1 ResolutionMode.r720 [] 0 (fun _ => 0)
        (Function.update resetBottomTracking 0 ⟨4, 1, true, 0⟩)).2 0 =
      (⟨4, 1, true, 0⟩ : KalmanState)) ∧
    (signalToColorT03Average jmZero
        (Function.update resetBottomTracking 0 ⟨4, 1, true, 0⟩)
        0 89 [3] 0 255 0 50).1 = ⟨210, 180, 140, 255⟩ ∧
    (signalToColorT03Average jmZero resetBottomTracking
        0 89 [3] 0 255 0 50).1 = transparent ∧
    (⟨210, 180, 140, 255⟩ : ColorRGBA) ≠ transparent := by
  decide

end SonarViewer
